import Mathlib

/-!
Verification development for the quickchart support core
(`google/colab/_quickchart_helpers.py`): a shallow embedding of the
chunker, the dataframe registry, Chart-With-Code construction and code
reconstruction, and the generic section builder, together with theorems
settling the specified properties.

Conventions of the embedding:
* Python sequences become `List`; Python slices `seq[a:b]` become
  `pySlice`; `range(a, b, step)` becomes `pyRangeStep`.
* The in-place mutation of the shared `DataframeRegistry` object and the
  `uuid4` fresh-token supply are threaded explicitly through a
  `BuildState`; a Python exception becomes `Except.error`, which (as in
  Python) does not roll the state back.
* `hash(bytes)` (a platform primitive, deterministic within a session)
  is modelled by the deterministic function `pyHash`; `uuid.uuid4()`
  (random, universally unique) is modelled by a fresh-supply counter.
-/

namespace Quickchart

/-- Model of Python `range(start, stop, step)` for a positive `step`:
the list `start, start + step, ...` of values below `stop`. -/
def pyRangeStep (start stop step : Nat) : List Nat :=
  if h : start < stop ∧ 0 < step then start :: pyRangeStep (start + step) stop step
  else []
termination_by stop - start
decreasing_by omega

/-- Model of `more_itertools.pairwise`: consecutive overlapping pairs. -/
def pairwise : List α → List (α × α)
  | a :: b :: rest => (a, b) :: pairwise (b :: rest)
  | _ => []

/-- Model of the Python slice `seq[start:stop]` for `0 ≤ start ≤ stop`. -/
def pySlice (seq : List α) (start stop : Nat) : List α :=
  (seq.take stop).drop start

/-- Embedding of `_chunked(seq, chunk_size)`: for consecutive boundary
pairs `(start, end)` drawn from `list(range(0, len(seq), chunk_size)) + [len(seq)]`,
yield `seq[start:end]`. -/
def _chunked (seq : List α) (chunk_size : Nat) : List (List α) :=
  (pairwise (pyRangeStep 0 seq.length chunk_size ++ [seq.length])).map
    (fun p => pySlice seq p.1 p.2)

/-- Recursive reformulation of the chunker used to reason about
`_chunked`: take `k` elements starting at offset `s` while `s` is inside
the sequence. -/
def chunksFrom (seq : List α) (k s : Nat) : List (List α) :=
  if h : s < seq.length ∧ 0 < k then
    pySlice seq s (min (s + k) seq.length) :: chunksFrom seq k (s + k)
  else []
termination_by seq.length - s
decreasing_by omega

theorem pyRangeStep_pos {start stop step : Nat} (h1 : start < stop) (h2 : 0 < step) :
    pyRangeStep start stop step = start :: pyRangeStep (start + step) stop step := by
  rw [pyRangeStep]; simp [h1, h2]

theorem pyRangeStep_stop {start stop step : Nat} (h1 : stop ≤ start) :
    pyRangeStep start stop step = [] := by
  rw [pyRangeStep]
  have : ¬ (start < stop ∧ 0 < step) := by omega
  simp [this]

theorem chunksFrom_pos {seq : List α} {k s : Nat} (h1 : s < seq.length) (h2 : 0 < k) :
    chunksFrom seq k s = pySlice seq s (min (s + k) seq.length) :: chunksFrom seq k (s + k) := by
  rw [chunksFrom]; simp [h1, h2]

theorem chunksFrom_stop {seq : List α} {k s : Nat} (h1 : seq.length ≤ s) :
    chunksFrom seq k s = [] := by
  rw [chunksFrom]
  have : ¬ (s < seq.length ∧ 0 < k) := by omega
  simp [this]

/-- The boundary-pair formulation of the chunker agrees with the
recursive one, at every starting offset. -/
theorem chunked_eq_chunksFrom_aux (seq : List α) (k : Nat) (hk : 0 < k) :
    ∀ fuel s, seq.length - s ≤ fuel →
      (pairwise (pyRangeStep s seq.length k ++ [seq.length])).map
        (fun p => pySlice seq p.1 p.2) = chunksFrom seq k s := by
  intro fuel
  induction fuel with
  | zero =>
      intro s hs
      have h1 : seq.length ≤ s := by omega
      rw [pyRangeStep_stop h1, chunksFrom_stop h1]
      simp [pairwise]
  | succ n ih =>
      intro s hs
      by_cases h1 : s < seq.length
      · rw [pyRangeStep_pos h1 hk, chunksFrom_pos h1 hk]
        by_cases h2 : s + k < seq.length
        · rw [pyRangeStep_pos h2 hk]
          have hmin : min (s + k) seq.length = s + k := by omega
          rw [hmin]
          have := ih (s + k) (by omega)
          rw [pyRangeStep_pos h2 hk] at this
          simpa [pairwise] using this
        · have h3 : seq.length ≤ s + k := by omega
          rw [pyRangeStep_stop h3]
          have hmin : min (s + k) seq.length = seq.length := by omega
          rw [hmin]
          have := @chunksFrom_stop _ seq k (s + k) h3
          simp [pairwise, this]
      · have h1' : seq.length ≤ s := by omega
        rw [pyRangeStep_stop h1', chunksFrom_stop h1']
        simp [pairwise]

theorem chunked_eq_chunksFrom (seq : List α) (k : Nat) (hk : 0 < k) :
    _chunked seq k = chunksFrom seq k 0 := by
  exact chunked_eq_chunksFrom_aux seq k hk seq.length 0 (by omega)

theorem pySlice_min (seq : List α) (s k : Nat) :
    pySlice seq s (min (s + k) seq.length) = (seq.drop s).take k := by
  unfold pySlice
  have h1 : seq.take (min (s + k) seq.length) = seq.take (s + k) := by
    rw [List.take_eq_take]; omega
  rw [h1, List.drop_take]
  congr 1
  omega

/-- Concatenating the chunks from offset `s` gives the suffix from `s`. -/
theorem chunksFrom_flatten (seq : List α) (k : Nat) (hk : 0 < k) :
    ∀ fuel s, seq.length - s ≤ fuel →
      (chunksFrom seq k s).flatten = seq.drop s := by
  intro fuel
  induction fuel with
  | zero =>
      intro s hs
      have h1 : seq.length ≤ s := by omega
      rw [chunksFrom_stop h1]
      simp [List.drop_eq_nil_of_le h1]
  | succ n ih =>
      intro s hs
      by_cases h1 : s < seq.length
      · rw [chunksFrom_pos h1 hk]
        rw [List.flatten_cons, pySlice_min, ih (s + k) (by omega)]
        rw [← List.drop_drop]
        exact List.take_append_drop k (seq.drop s)
      · have h1' : seq.length ≤ s := by omega
        rw [chunksFrom_stop h1']
        simp [List.drop_eq_nil_of_le h1']

theorem chunksFrom_ne_nil {seq : List α} {k s : Nat} (h1 : s < seq.length) (h2 : 0 < k) :
    chunksFrom seq k s ≠ [] := by
  rw [chunksFrom_pos h1 h2]; simp

/-- Every chunk except possibly the last has length exactly `k`. -/
theorem chunksFrom_dropLast_length (seq : List α) (k : Nat) (hk : 0 < k) :
    ∀ fuel s, seq.length - s ≤ fuel →
      ∀ c ∈ (chunksFrom seq k s).dropLast, c.length = k := by
  intro fuel
  induction fuel with
  | zero =>
      intro s hs c hc
      have h1 : seq.length ≤ s := by omega
      rw [chunksFrom_stop h1] at hc
      simp at hc
  | succ n ih =>
      intro s hs c hc
      by_cases h1 : s < seq.length
      · rw [chunksFrom_pos h1 hk] at hc
        by_cases h2 : s + k < seq.length
        · rw [List.dropLast_cons_of_ne_nil (chunksFrom_ne_nil h2 hk)] at hc
          rcases List.mem_cons.mp hc with hc | hc
          · subst hc
            rw [pySlice_min]
            rw [List.length_take, List.length_drop]
            omega
          · exact ih (s + k) (by omega) c hc
        · have h3 : seq.length ≤ s + k := by omega
          rw [chunksFrom_stop h3] at hc
          simp at hc
      · have h1' : seq.length ≤ s := by omega
        rw [chunksFrom_stop h1'] at hc
        simp at hc

/-- No produced chunk is empty. -/
theorem chunksFrom_ne_empty (seq : List α) (k : Nat) (hk : 0 < k) :
    ∀ fuel s, seq.length - s ≤ fuel →
      ∀ c ∈ chunksFrom seq k s, c ≠ [] := by
  intro fuel
  induction fuel with
  | zero =>
      intro s hs c hc
      have h1 : seq.length ≤ s := by omega
      rw [chunksFrom_stop h1] at hc
      simp at hc
  | succ n ih =>
      intro s hs c hc
      by_cases h1 : s < seq.length
      · rw [chunksFrom_pos h1 hk] at hc
        rcases List.mem_cons.mp hc with hc | hc
        · subst hc
          rw [pySlice_min]
          intro hnil
          have := congrArg List.length hnil
          rw [List.length_take, List.length_drop] at this
          simp at this
          omega
        · exact ih (s + k) (by omega) c hc
      · have h1' : seq.length ≤ s := by omega
        rw [chunksFrom_stop h1'] at hc
        simp at hc

/-- C2: for every sequence and positive chunk size, the chunks
concatenate back to the sequence in order, every chunk except possibly
the last has length exactly the chunk size, the empty sequence produces
zero chunks, and no produced chunk is empty. -/
theorem chunked_spec {α : Type} (seq : List α) (k : Nat) (hk : 0 < k) :
    (_chunked seq k).flatten = seq
    ∧ (∀ c ∈ (_chunked seq k).dropLast, c.length = k)
    ∧ (seq = [] → _chunked seq k = [])
    ∧ (∀ c ∈ _chunked seq k, c ≠ []) := by
  rw [chunked_eq_chunksFrom seq k hk]
  refine ⟨?_, ?_, ?_, ?_⟩
  · simpa using chunksFrom_flatten seq k hk seq.length 0 (by omega)
  · exact chunksFrom_dropLast_length seq k hk seq.length 0 (by omega)
  · intro h; subst h
    exact chunksFrom_stop (by simp)
  · exact chunksFrom_ne_empty seq k hk seq.length 0 (by omega)

/-- C2 witness: the chunker specification at the concrete sequence
`[10, 20, 30, 40, 50]` with chunk size `2`. -/
theorem chunked_spec_witness :
    0 < 2
    ∧ ((_chunked [10, 20, 30, 40, 50] 2).flatten = [10, 20, 30, 40, 50]
      ∧ (∀ c ∈ (_chunked [10, 20, 30, 40, 50] 2).dropLast, c.length = 2)
      ∧ ([10, 20, 30, 40, 50] = ([] : List Nat) → _chunked [10, 20, 30, 40, 50] 2 = [])
      ∧ (∀ c ∈ _chunked [10, 20, 30, 40, 50] 2, c ≠ [])) :=
  ⟨by decide, chunked_spec [10, 20, 30, 40, 50] 2 (by decide)⟩

/-! ## Decimal rendering of natural numbers

Python's f-string renders `abs(hash(...))` (a nonnegative int) in
decimal; `decimal` is that rendering.  Injectivity is proved through the
round trip `decimalVal`. -/

/-- The character of a decimal digit, as Python prints it. -/
def digitChar (n : Nat) : Char := Char.ofNat (48 + n)

/-- Digit list of a positive number, most significant first, prepended
to an accumulator. -/
def decimalDigits : Nat → List Char → List Char
  | 0, acc => acc
  | n + 1, acc => decimalDigits ((n + 1) / 10) (digitChar ((n + 1) % 10) :: acc)
termination_by n => n
decreasing_by exact Nat.div_lt_self (by omega) (by omega)

/-- Decimal rendering of a natural number, as Python's `str`/f-string. -/
def decimal (n : Nat) : String :=
  if n = 0 then "0" else ⟨decimalDigits n []⟩

/-- Reads a digit list back to a number (left inverse of the rendering). -/
def decimalVal (cs : List Char) : Nat :=
  cs.foldl (fun a c => a * 10 + (c.toNat - 48)) 0

theorem decimalDigits_append (n : Nat) :
    ∀ acc, decimalDigits n acc = decimalDigits n [] ++ acc := by
  induction n using Nat.strong_induction_on with
  | _ n ih =>
    intro acc
    match n with
    | 0 => simp [decimalDigits]
    | m + 1 =>
      rw [decimalDigits, decimalDigits]
      rw [ih ((m + 1) / 10) (Nat.div_lt_self (by omega) (by omega)) (digitChar ((m + 1) % 10) :: acc)]
      rw [ih ((m + 1) / 10) (Nat.div_lt_self (by omega) (by omega)) [digitChar ((m + 1) % 10)]]
      simp

theorem decimalVal_snoc (cs : List Char) (c : Char) :
    decimalVal (cs ++ [c]) = decimalVal cs * 10 + (c.toNat - 48) := by
  unfold decimalVal
  rw [List.foldl_append]
  simp

theorem toNat_digitChar {m : Nat} (h : m < 10) : (digitChar m).toNat = 48 + m := by
  interval_cases m <;> decide

theorem decimalVal_decimalDigits (n : Nat) :
    decimalVal (decimalDigits n []) = n := by
  induction n using Nat.strong_induction_on with
  | _ n ih =>
    match n with
    | 0 => simp [decimalDigits, decimalVal]
    | m + 1 =>
      rw [decimalDigits, decimalDigits_append]
      rw [decimalVal_snoc]
      rw [ih ((m + 1) / 10) (Nat.div_lt_self (by omega) (by omega))]
      rw [toNat_digitChar (Nat.mod_lt _ (by omega))]
      omega

theorem decimal_injective : Function.Injective decimal := by
  intro a b hab
  have hdata : (decimal a).data = (decimal b).data := by rw [hab]
  have hz : ("0" : String).data = ['0'] := by decide
  have h0 : decimalVal ['0'] = 0 := by decide
  by_cases ha : a = 0 <;> by_cases hb : b = 0
  · omega
  · exfalso
    simp [decimal, ha, hb] at hdata
    have := congrArg decimalVal hdata
    rw [decimalVal_decimalDigits, h0] at this
    omega
  · exfalso
    simp [decimal, ha, hb] at hdata
    have := congrArg decimalVal hdata
    rw [decimalVal_decimalDigits, h0] at this
    omega
  · simp [decimal, ha, hb] at hdata
    have := congrArg decimalVal hdata
    rw [decimalVal_decimalDigits, decimalVal_decimalDigits] at this
    exact this

theorem string_append_left_cancel {p s t : String} (h : p ++ s = p ++ t) : s = t := by
  have hd : (p ++ s).data = (p ++ t).data := by rw [h]
  rw [String.data_append, String.data_append] at hd
  exact String.ext (List.append_cancel_left hd)

/-! ## Dataframe, fingerprint and registry -/

/-- A dataframe for registry purposes: named columns over a grid of cell
values; `values` lists the rows (as `df.values` does). -/
structure DF where
  colnames : List String
  values : List (List Int)
deriving DecidableEq, Repr

/-- `df.values.tobytes()`: the raw cell values in row-major order. -/
def DF.valuesBytes (df : DF) : List Int := df.values.flatten

/-- Model of the platform primitive `hash` on a byte string: an
arbitrary fixed deterministic function, as `hash` is within one
session. -/
def pyHash (bytes : List Int) : Int :=
  bytes.foldl (fun acc b => acc * 31 + b) (bytes.length)

/-- The name `f'df_{abs(hash(df.values.tobytes()))}'` computed by
`register_df_varname`. -/
def dfVarname (df : DF) : String :=
  "df_" ++ decimal (pyHash df.valuesBytes).natAbs

/-- Embedding of `DataframeRegistry`: the `_df_chart_registry` dict,
most recent binding first. -/
structure DataframeRegistry where
  _df_chart_registry : List (String × DF)
deriving DecidableEq, Repr

/-- `DataframeRegistry()`: the empty registry. -/
def DataframeRegistry.init : DataframeRegistry := ⟨[]⟩

/-- Embedding of `register_df_varname`: derive the name from the value
hash, store the binding (last writer wins) and return the name together
with the updated registry. -/
def DataframeRegistry.register_df_varname (r : DataframeRegistry) (df : DF) :
    String × DataframeRegistry :=
  let df_name := dfVarname df
  (df_name, ⟨(df_name, df) :: r._df_chart_registry⟩)

/-- Python error values surfaced by the embedding. -/
inductive PyErr
  | keyError (key : String)
  | plotError (msg : String)
deriving DecidableEq, Repr

/-- Embedding of `__getitem__`: dict lookup, raising `KeyError` on an
unknown name; the registry itself is returned unchanged. -/
def DataframeRegistry.getItem (r : DataframeRegistry) (df_varname : String) :
    Except PyErr DF × DataframeRegistry :=
  (match r._df_chart_registry.lookup df_varname with
   | some df => .ok df
   | none => .error (.keyError df_varname), r)

/-- A registry reached from `init` by a sequence of registrations. -/
def registerAll (dfs : List DF) : DataframeRegistry :=
  dfs.foldl (fun r df => (r.register_df_varname df).2) .init

/-! ## Charts with code -/

/-- A rendered chart object.  The plotting primitives are out-of-scope
collaborators; a chart records the call that produced it. -/
structure Chart where
  chart_df : DF
  chart_args : List String
  chart_kwargs : List (String × String)
deriving DecidableEq, Repr

/-- A plotting function, as the boundary contract describes it:
introspectable (`name` is `__name__`, `source` is its retrievable
source text) and callable on `(dataframe, *args, **kwargs)`; a raised
exception becomes `Except.error`. -/
structure PlotFunc where
  name : String
  source : String
  run : DF → List String → List (String × String) → Except PyErr Chart

/-- Modelled from the spec: `_quickchart_lib.histogram` is not under
`src/`; the spec says each plotting primitive is a pure function
`(dataframe, *args, **kwargs) -> renderable chart object`. -/
def histogram : PlotFunc where
  name := "histogram"
  source := "def histogram(df, colname, num_bins=20, **kwargs): ..."
  run := fun df args kwargs => .ok ⟨df, args, kwargs⟩

/-- A plotting function whose invocation raises, used to exercise the
failure-propagation contracts. -/
def failingPlot (msg : String) : PlotFunc where
  name := "failing_plot"
  source := "def failing_plot(df, *args, **kwargs): raise ValueError(...)"
  run := fun _ _ _ => .error (.plotError msg)

/-- The `uuid.uuid4()` supply, modelled as a fresh counter: each draw is
a token never returned before. -/
structure UuidGen where
  counter : Nat
deriving DecidableEq, Repr

/-- Model of `str(uuid.uuid4())`: a fresh token, distinct from every
earlier and later draw. -/
def UuidGen.fresh (g : UuidGen) : String × UuidGen :=
  (decimal g.counter, ⟨g.counter + 1⟩)

/-- The mutable state threaded through chart construction: the shared
registry object and the uuid supply. -/
structure BuildState where
  registry : DataframeRegistry
  uuids : UuidGen
deriving DecidableEq, Repr

/-- The initial build state: a fresh `DataframeRegistry()` and an
unused uuid supply. -/
def initState : BuildState := ⟨.init, ⟨0⟩⟩

/-- Embedding of `ChartWithCode` instances: the fields set by
`__init__`. -/
structure ChartWithCode where
  _df : DF
  _df_varname : String
  _plot_func : PlotFunc
  _args : List String
  _kwargs : List (String × String)
  _chart_id : String
  _chart : Chart

/-- Embedding of `ChartWithCode.__init__`: register the dataframe,
store the function and arguments, generate `chart-<uuid4>`, then
eagerly invoke the plotting function; an exception propagates while the
state mutations made so far remain. -/
def ChartWithCode.init (df : DF) (plot_func : PlotFunc) (args : List String)
    (kwargs : List (String × String)) (s : BuildState) :
    Except PyErr ChartWithCode × BuildState :=
  let reg := s.registry.register_df_varname df
  let u := s.uuids.fresh
  let s2 : BuildState := ⟨reg.2, u.2⟩
  match plot_func.run df args kwargs with
  | .error e => (.error e, s2)
  | .ok chart =>
      (.ok { _df := df, _df_varname := reg.1, _plot_func := plot_func,
             _args := args, _kwargs := kwargs,
             _chart_id := "chart-" ++ u.1, _chart := chart }, s2)

/-- Model of Python `str` on a list of strings: `['x', 'y']`. -/
def pyStrList (xs : List String) : String :=
  "[" ++ String.intercalate ", " (xs.map (fun x => "\x27" ++ x ++ "\x27")) ++ "]"

/-- Model of Python `str` on a string-valued dict: `{'a': 'b'}`. -/
def pyStrDict (kw : List (String × String)) : String :=
  "\x7b" ++ String.intercalate ", "
    (kw.map (fun p => "\x27" ++ p.1 ++ "\x27: \x27" ++ p.2 ++ "\x27")) ++ "\x7d"

/-- Embedding of `ChartWithCode.get_code`: the dedented header that
imports the plotting namespace and rehydrates the dataframe through the
registry, a blank line, the introspected plotting-function source, a
blank line, and the final invocation expression. -/
def ChartWithCode.get_code (c : ChartWithCode) : String :=
  let plot_invocation :=
    "chart = " ++ c._plot_func.name ++ "(" ++ c._df_varname ++ ", *"
      ++ pyStrList c._args ++ ", **" ++ pyStrDict c._kwargs ++ ")\nchart"
  let chart_src :=
    "import altair as alt\nfrom google.colab import _quickchart\n"
      ++ c._df_varname ++ " = _quickchart.get_registered_df(\x27"
      ++ c._df_varname ++ "\x27)\n"
  chart_src ++ "\n" ++ c._plot_func.source ++ "\n" ++ plot_invocation

/-- `get_code` with the build state threaded through, as the host
invokes it: the body of `get_code` only reads the instance's stored
fields and builds strings, so the state passes through untouched. -/
def ChartWithCode.get_code_st (c : ChartWithCode) (s : BuildState) :
    String × BuildState :=
  (c.get_code, s)

/-- A displayable collected by a chart section: a section title or a
chart. -/
inductive Displayable
  | sectionTitle (title : String)
  | chart (c : ChartWithCode)

/-- The title of a displayable, when it is a `SectionTitle`. -/
def displayableTitle : Displayable → Option String
  | .sectionTitle t => some t
  | .chart _ => none

/-- Embedding of `ChartSection`. -/
structure ChartSection where
  _charts : List ChartWithCode
  _displayables : List Displayable

/-- The `charts` property. -/
def ChartSection.charts (cs : ChartSection) : List ChartWithCode := cs._charts

/-- A per-chart argument as the section builders pass it: a bare scalar
(a single column name) or a sequence of column names. -/
inductive Selector
  | scalar (s : String)
  | seq (l : List String)
deriving DecidableEq, Repr

/-- Model of `np.atleast_1d(args).tolist()`: a scalar becomes a
one-element list, a sequence stays as it is. -/
def atleast_1d (a : Selector) : List String :=
  match a with
  | .scalar s => [s]
  | .seq l => l

/-- The chart-building loop of `_chart_section`'s list comprehension:
charts are built sequentially and the first exception aborts the loop,
the state mutations made so far remaining. -/
def buildCharts (df : DF) (plot_func : PlotFunc) (kwargs : List (String × String)) :
    List Selector → BuildState → Except PyErr (List ChartWithCode) × BuildState
  | [], s => (.ok [], s)
  | a :: rest, s =>
      match ChartWithCode.init df plot_func (atleast_1d a) kwargs s with
      | (.error e, s2) => (.error e, s2)
      | (.ok c, s2) =>
          match buildCharts df plot_func kwargs rest s2 with
          | (.error e, s3) => (.error e, s3)
          | (.ok cs, s3) => (.ok (c :: cs), s3)

/-- Embedding of `_chart_section`: one `ChartWithCode` per argument
tuple (each normalized by `np.atleast_1d(args).tolist()`), collected in
order into a `ChartSection` whose displayables are the section title
followed by the charts. -/
def _chart_section (df : DF) (plot_func : PlotFunc) (args_per_chart : List Selector)
    (kwargs : List (String × String)) (title : String) (s : BuildState) :
    Except PyErr ChartSection × BuildState :=
  match buildCharts df plot_func kwargs args_per_chart s with
  | (.error e, s2) => (.error e, s2)
  | (.ok charts, s2) =>
      (.ok { _charts := charts,
             _displayables := .sectionTitle title :: charts.map .chart }, s2)

/-- Embedding of `histograms_section`: the generic section builder
applied to the histogram plotting function with title
`"Distributions"`; each column name is one scalar per-chart argument. -/
def histograms_section (df : DF) (colnames : List String) (s : BuildState) :
    Except PyErr ChartSection × BuildState :=
  _chart_section df histogram (colnames.map .scalar) [] "Distributions" s

/-! ## Concrete data used by witnesses -/

/-- The dataframe with columns `x = [1, 2, 3]` and `y = [4, 5, 6]`,
rows as `df.values` lists them. -/
def dfXY : DF := ⟨["x", "y"], [[1, 4], [2, 5], [3, 6]]⟩

/-- A value-equal copy of `dfXY` under different column names (a
distinct object with identical underlying cell values). -/
def dfXY' : DF := ⟨["a", "b"], [[1, 4], [2, 5], [3, 6]]⟩

/-- A dataframe with different cell values. -/
def dfB : DF := ⟨["x"], [[7], [8]]⟩

/-- The charts of a section-build result (empty on failure). -/
def chartsOf (r : Except PyErr ChartSection × BuildState) : List ChartWithCode :=
  match r.1 with
  | .ok sec => sec.charts
  | .error _ => []

/-- The displayable titles of a section-build result (empty on
failure). -/
def titlesOf (r : Except PyErr ChartSection × BuildState) : List (Option String) :=
  match r.1 with
  | .ok sec => sec._displayables.map displayableTitle
  | .error _ => []

/-- Whether a section-build result succeeded. -/
def sectionOk (r : Except PyErr ChartSection × BuildState) : Bool :=
  match r.1 with
  | .ok _ => true
  | .error _ => false

/-! ## Claim theorems -/

/-- C1: on the dataframe with columns x = [1,2,3], y = [4,5,6],
`histograms_section(df, ["x","y"], registry)` returns a section titled
"Distributions" with exactly 2 charts; chart 0 is built from argument
"x" and chart 1 from argument "y" (selector order, no reordering), and
both charts reference the same registered dataframe name. -/
theorem histograms_section_end_to_end :
    sectionOk (histograms_section dfXY ["x", "y"] initState) = true
    ∧ titlesOf (histograms_section dfXY ["x", "y"] initState)
        = [some "Distributions", none, none]
    ∧ (chartsOf (histograms_section dfXY ["x", "y"] initState)).length = 2
    ∧ (chartsOf (histograms_section dfXY ["x", "y"] initState)).map
        (fun c => c._args) = [["x"], ["y"]]
    ∧ (chartsOf (histograms_section dfXY ["x", "y"] initState)).map
        (fun c => c._df_varname) = [dfVarname dfXY, dfVarname dfXY] :=
  ⟨rfl, rfl, rfl, rfl, rfl⟩

/-- C3: names are a function of the underlying cell values alone.
Registering value-equal dataframes (also distinct objects, also
repeatedly, in the same or any registry state) returns the same name
every time; dataframes whose value hashes do not collide (the
overwhelmingly probable case) receive different names. -/
theorem register_names_spec :
    (∀ (r1 r2 : DataframeRegistry) (df1 df2 : DF),
      df1.valuesBytes = df2.valuesBytes →
      (r1.register_df_varname df1).1 = (r2.register_df_varname df2).1)
    ∧ (∀ (r1 r2 : DataframeRegistry) (df1 df2 : DF),
      (pyHash df1.valuesBytes).natAbs ≠ (pyHash df2.valuesBytes).natAbs →
      (r1.register_df_varname df1).1 ≠ (r2.register_df_varname df2).1) := by
  constructor
  · intro r1 r2 df1 df2 h
    simp [DataframeRegistry.register_df_varname, dfVarname, h]
  · intro r1 r2 df1 df2 h heq
    simp only [DataframeRegistry.register_df_varname, dfVarname] at heq
    exact h (decimal_injective (string_append_left_cancel heq))

/-- C3 witness: `dfXY` and its value-equal copy `dfXY'` receive the
same name; `dfXY` and the differently-valued `dfB` (whose hashes do not
collide) receive different names. -/
theorem register_names_spec_witness :
    (dfXY.valuesBytes = dfXY'.valuesBytes
      ∧ (DataframeRegistry.init.register_df_varname dfXY).1
          = (DataframeRegistry.init.register_df_varname dfXY').1)
    ∧ ((pyHash dfXY.valuesBytes).natAbs ≠ (pyHash dfB.valuesBytes).natAbs
      ∧ (DataframeRegistry.init.register_df_varname dfXY).1
          ≠ (DataframeRegistry.init.register_df_varname dfB).1) :=
  ⟨⟨by decide, register_names_spec.1 _ _ _ _ (by decide)⟩,
   ⟨by decide, register_names_spec.2 _ _ _ _ (by decide)⟩⟩

/-- C4: in every registry state, resolving the name just returned by
registering `df` yields `df` itself (value-equal round trip), and the
lookup leaves the registry unchanged. -/
theorem register_resolve_roundtrip (r : DataframeRegistry) (df : DF) :
    ((r.register_df_varname df).2.getItem (r.register_df_varname df).1).1 = .ok df
    ∧ ((r.register_df_varname df).2.getItem (r.register_df_varname df).1).2
        = (r.register_df_varname df).2 := by
  constructor
  · simp [DataframeRegistry.register_df_varname, DataframeRegistry.getItem,
      List.lookup_cons]
  · rfl

theorem lookup_eq_none_of_not_mem :
    ∀ (l : List (String × DF)) (k : String),
      k ∉ l.map Prod.fst → l.lookup k = none := by
  intro l
  induction l with
  | nil => intro k _; rfl
  | cons p rest ih =>
      intro k hk
      obtain ⟨a, b⟩ := p
      simp only [List.map_cons, List.mem_cons, not_or] at hk
      rw [List.lookup_cons]
      have hne : (k == a) = false := by
        simp only [beq_eq_false_iff_ne, ne_eq]
        exact hk.1
      simp only [hne]
      exact ih k hk.2

theorem mem_of_lookup_eq_some :
    ∀ (l : List (String × DF)) (k : String) (v : DF),
      l.lookup k = some v → (k, v) ∈ l := by
  intro l
  induction l with
  | nil => intro k v h; simp [List.lookup] at h
  | cons p rest ih =>
      intro k v h
      obtain ⟨a, b⟩ := p
      rw [List.lookup_cons] at h
      by_cases hk : (k == a) = true
      · simp only [hk] at h
        have hb : b = v := by simpa using h
        have hka : k = a := eq_of_beq hk
        subst hb; subst hka
        exact List.mem_cons_self _ _
      · have hk' : (k == a) = false := by simpa using hk
        simp only [hk'] at h
        exact List.mem_cons_of_mem _ (ih k v h)

theorem lookup_isSome_of_mem :
    ∀ (l : List (String × DF)) (k : String),
      k ∈ l.map Prod.fst → ∃ v, l.lookup k = some v := by
  intro l
  induction l with
  | nil => intro k h; simp at h
  | cons p rest ih =>
      intro k hk
      obtain ⟨a, b⟩ := p
      rw [List.lookup_cons]
      by_cases hka : (k == a) = true
      · exact ⟨b, by simp [hka]⟩
      · have hk' : (k == a) = false := by simpa using hka
        simp only [hk']
        apply ih
        simp only [List.map_cons, List.mem_cons] at hk
        rcases hk with hk | hk
        · exact absurd (by simp [hk] : (k == a) = true) hka
        · exact hk

/-- The registry reached by a sequence of registrations holds exactly
the name/dataframe pairs of the registered dataframes, most recent
first. -/
theorem registerAll_eq (dfs : List DF) :
    ∀ acc : DataframeRegistry,
      (dfs.foldl (fun r df => (r.register_df_varname df).2) acc)._df_chart_registry
        = (dfs.map (fun df => (dfVarname df, df))).reverse ++ acc._df_chart_registry := by
  induction dfs with
  | nil => intro acc; simp
  | cons d rest ih =>
      intro acc
      simp only [List.foldl_cons, List.map_cons, List.reverse_cons]
      rw [ih]
      simp [DataframeRegistry.register_df_varname]

/-- C5: resolving a name never registered in a registry fails with a
`KeyError` and leaves the registry unchanged; resolving a previously
registered name returns a dataframe that was stored under it. -/
theorem resolve_spec (dfs : List DF) (name : String) :
    (name ∉ dfs.map dfVarname →
      (registerAll dfs).getItem name = (.error (.keyError name), registerAll dfs))
    ∧ (name ∈ dfs.map dfVarname →
      ∃ df, df ∈ dfs ∧ dfVarname df = name
        ∧ (registerAll dfs).getItem name = (.ok df, registerAll dfs)) := by
  have hreg : (registerAll dfs)._df_chart_registry
      = (dfs.map (fun df => (dfVarname df, df))).reverse := by
    have := registerAll_eq dfs DataframeRegistry.init
    simpa [registerAll, DataframeRegistry.init] using this
  have hkeys : ((registerAll dfs)._df_chart_registry).map Prod.fst
      = (dfs.map dfVarname).reverse := by
    rw [hreg, ← List.map_reverse, List.map_map]
    simp [Function.comp]
  constructor
  · intro hmem
    have hnone : ((registerAll dfs)._df_chart_registry).lookup name = none := by
      apply lookup_eq_none_of_not_mem
      rw [hkeys]
      simpa using hmem
    simp [DataframeRegistry.getItem, hnone]
  · intro hmem
    have hsome : ∃ v, ((registerAll dfs)._df_chart_registry).lookup name = some v := by
      apply lookup_isSome_of_mem
      rw [hkeys]
      simpa using hmem
    obtain ⟨v, hv⟩ := hsome
    have hmem2 : (name, v) ∈ (registerAll dfs)._df_chart_registry :=
      mem_of_lookup_eq_some _ _ _ hv
    rw [hreg, List.mem_reverse, List.mem_map] at hmem2
    obtain ⟨df, hdf, hpair⟩ := hmem2
    have h1 : dfVarname df = name := congrArg Prod.fst hpair
    have h2 : df = v := congrArg Prod.snd hpair
    refine ⟨v, h2 ▸ hdf, h2 ▸ h1, ?_⟩
    simp [DataframeRegistry.getItem, hv]

/-- C5 witness: in the registry holding only `dfXY`, the never
registered name "nope" fails with a `KeyError` (registry unchanged),
and the registered name of `dfXY` resolves to a stored dataframe. -/
theorem resolve_spec_witness :
    ("nope" ∉ [dfXY].map dfVarname
      ∧ (registerAll [dfXY]).getItem "nope"
          = (.error (.keyError "nope"), registerAll [dfXY]))
    ∧ (dfVarname dfXY ∈ [dfXY].map dfVarname
      ∧ ∃ df, df ∈ [dfXY] ∧ dfVarname df = dfVarname dfXY
          ∧ (registerAll [dfXY]).getItem (dfVarname dfXY)
              = (.ok df, registerAll [dfXY])) :=
  ⟨⟨by simp [dfVarname, decimal, decimalDigits, digitChar, pyHash, DF.valuesBytes, dfXY],
    (resolve_spec [dfXY] "nope").1
      (by simp [dfVarname, decimal, decimalDigits, digitChar, pyHash, DF.valuesBytes, dfXY])⟩,
   ⟨by simp,
    (resolve_spec [dfXY] (dfVarname dfXY)).2 (by simp)⟩⟩

theorem init_error {df : DF} {pf : PlotFunc} {args : List String}
    {kwargs : List (String × String)} {e : PyErr} (s : BuildState)
    (h : pf.run df args kwargs = .error e) :
    ChartWithCode.init df pf args kwargs s
      = (.error e, ⟨(s.registry.register_df_varname df).2, s.uuids.fresh.2⟩) := by
  simp [ChartWithCode.init, h]

theorem init_ok {df : DF} {pf : PlotFunc} {args : List String}
    {kwargs : List (String × String)} {ch : Chart} (s : BuildState)
    (h : pf.run df args kwargs = .ok ch) :
    ChartWithCode.init df pf args kwargs s
      = (.ok { _df := df, _df_varname := (s.registry.register_df_varname df).1,
               _plot_func := pf, _args := args, _kwargs := kwargs,
               _chart_id := "chart-" ++ s.uuids.fresh.1, _chart := ch },
         ⟨(s.registry.register_df_varname df).2, s.uuids.fresh.2⟩) := by
  simp [ChartWithCode.init, h]

theorem buildCharts_cons_error {df : DF} {pf : PlotFunc}
    {kwargs : List (String × String)} {e : PyErr} (a : Selector)
    (rest : List Selector) (s : BuildState)
    (h : pf.run df (atleast_1d a) kwargs = .error e) :
    buildCharts df pf kwargs (a :: rest) s
      = (.error e, ⟨(s.registry.register_df_varname df).2, s.uuids.fresh.2⟩) := by
  simp [buildCharts, init_error s h]

theorem buildCharts_cons_ok {df : DF} {pf : PlotFunc}
    {kwargs : List (String × String)} {ch : Chart} (a : Selector)
    (rest : List Selector) (s : BuildState)
    (h : pf.run df (atleast_1d a) kwargs = .ok ch) :
    buildCharts df pf kwargs (a :: rest) s
      = (Except.map
           (fun cs =>
             ({ _df := df, _df_varname := (s.registry.register_df_varname df).1,
                _plot_func := pf, _args := atleast_1d a, _kwargs := kwargs,
                _chart_id := "chart-" ++ s.uuids.fresh.1, _chart := ch } : ChartWithCode) :: cs)
           (buildCharts df pf kwargs rest
             ⟨(s.registry.register_df_varname df).2, s.uuids.fresh.2⟩).1,
         (buildCharts df pf kwargs rest
           ⟨(s.registry.register_df_varname df).2, s.uuids.fresh.2⟩).2) := by
  rcases hb : buildCharts df pf kwargs rest
      ⟨(s.registry.register_df_varname df).2, s.uuids.fresh.2⟩ with ⟨res, s3⟩
  rcases res with e | cs <;> simp [buildCharts, init_ok s h, hb, Except.map]

/-- The first plotting failure in the chart-building loop propagates
out unmodified. -/
theorem buildCharts_error (df : DF) (pf : PlotFunc)
    (kwargs : List (String × String)) (e : PyErr) :
    ∀ (pre : List Selector) (a : Selector) (rest : List Selector) (s : BuildState),
      (∀ b ∈ pre, ∃ ch, pf.run df (atleast_1d b) kwargs = .ok ch) →
      pf.run df (atleast_1d a) kwargs = .error e →
      (buildCharts df pf kwargs (pre ++ a :: rest) s).1 = .error e := by
  intro pre
  induction pre with
  | nil =>
      intro a rest s _ ha
      rw [List.nil_append, buildCharts_cons_error a rest s ha]
  | cons b pre' ih =>
      intro a rest s hpre ha
      obtain ⟨ch, hch⟩ := hpre b (List.mem_cons_self _ _)
      rw [List.cons_append, buildCharts_cons_ok b (pre' ++ a :: rest) s hch]
      have htail := ih a rest ⟨(s.registry.register_df_varname df).2, s.uuids.fresh.2⟩
        (fun b hb => hpre b (List.mem_cons_of_mem _ hb)) ha
      simp only [htail, Except.map]

/-- The fields of a successfully constructed Chart-With-Code record
the registration, the fresh identifier and the eager plotting call. -/
theorem init_ok_fields (df : DF) (pf : PlotFunc) (args : List String)
    (kwargs : List (String × String)) (s s2 : BuildState) (c : ChartWithCode)
    (h : ChartWithCode.init df pf args kwargs s = (.ok c, s2)) :
    pf.run df args kwargs = .ok c._chart
      ∧ c._df_varname = (s.registry.register_df_varname df).1
      ∧ c._chart_id = "chart-" ++ s.uuids.fresh.1
      ∧ s2 = ⟨(s.registry.register_df_varname df).2, s.uuids.fresh.2⟩ := by
  rcases hrun : pf.run df args kwargs with e | ch
  · rw [init_error s hrun] at h
    simp at h
  · rw [init_ok s hrun] at h
    simp only [Prod.mk.injEq, Except.ok.injEq] at h
    obtain ⟨hc, hs⟩ := h
    subst hc
    exact ⟨rfl, rfl, rfl, hs.symm⟩

/-- C6: Chart-With-Code construction registers the dataframe, draws a
fresh chart identifier, then eagerly invokes the plotting function on
`(dataframe, *args, **kwargs)`; a plotting failure propagates unmodified
with no chart constructed, and aborts the enclosing section build with
no section and no partial chart list. -/
theorem chart_construction_spec :
    (∀ (df : DF) (pf : PlotFunc) (args : List String)
        (kwargs : List (String × String)) (s : BuildState) (e : PyErr),
      pf.run df args kwargs = .error e →
      ChartWithCode.init df pf args kwargs s
        = (.error e, ⟨(s.registry.register_df_varname df).2, s.uuids.fresh.2⟩))
    ∧ (∀ (df : DF) (pf : PlotFunc) (args : List String)
        (kwargs : List (String × String)) (s s2 : BuildState) (c : ChartWithCode),
      ChartWithCode.init df pf args kwargs s = (.ok c, s2) →
      pf.run df args kwargs = .ok c._chart
        ∧ c._df_varname = (s.registry.register_df_varname df).1
        ∧ c._chart_id = "chart-" ++ s.uuids.fresh.1
        ∧ s2 = ⟨(s.registry.register_df_varname df).2, s.uuids.fresh.2⟩)
    ∧ (∀ (df : DF) (pf : PlotFunc) (kwargs : List (String × String))
        (title : String) (s : BuildState) (e : PyErr)
        (pre : List Selector) (a : Selector) (rest : List Selector),
      (∀ b ∈ pre, ∃ ch, pf.run df (atleast_1d b) kwargs = .ok ch) →
      pf.run df (atleast_1d a) kwargs = .error e →
      (_chart_section df pf (pre ++ a :: rest) kwargs title s).1 = .error e) := by
  refine ⟨?_, ?_, ?_⟩
  · intro df pf args kwargs s e h
    exact init_error s h
  · intro df pf args kwargs s s2 c h
    exact init_ok_fields df pf args kwargs s s2 c h
  · intro df pf kwargs title s e pre a rest hpre ha
    have hb := buildCharts_error df pf kwargs e pre a rest s hpre ha
    rcases hbc : buildCharts df pf kwargs (pre ++ a :: rest) s with ⟨res, s3⟩
    rw [hbc] at hb
    simp at hb
    subst hb
    simp [_chart_section, hbc]

/-- C6 witness: a plotting function that raises makes both the one
chart's construction and the whole section build fail with that very
error, at the concrete input `dfXY`/selector "x". -/
theorem chart_construction_spec_witness :
    ((failingPlot "boom").run dfXY ["x"] [] = .error (.plotError "boom")
      ∧ ChartWithCode.init dfXY (failingPlot "boom") ["x"] [] initState
          = (.error (.plotError "boom"),
             ⟨(initState.registry.register_df_varname dfXY).2, initState.uuids.fresh.2⟩))
    ∧ (_chart_section dfXY (failingPlot "boom") [.scalar "x"] [] "Distributions"
        initState).1 = .error (.plotError "boom") :=
  ⟨⟨rfl, chart_construction_spec.1 _ _ _ _ _ _ rfl⟩,
   chart_construction_spec.2.2 dfXY (failingPlot "boom") [] "Distributions"
     initState (.plotError "boom") [] (.scalar "x") [] (by simp) rfl⟩

/-- C7: `get_code` is pure and stable: with the build state threaded
through as the host invokes it, two consecutive calls on one instance
return identical text and leave the state exactly as it was; and the
text is a function of the instance's stored fields alone. -/
theorem get_code_pure_stable :
    (∀ (c : ChartWithCode) (s : BuildState),
      (c.get_code_st s).1 = (c.get_code_st (c.get_code_st s).2).1
        ∧ (c.get_code_st (c.get_code_st s).2).2 = s)
    ∧ (∀ c1 c2 : ChartWithCode,
      c1._plot_func.name = c2._plot_func.name →
      c1._plot_func.source = c2._plot_func.source →
      c1._df_varname = c2._df_varname →
      c1._args = c2._args →
      c1._kwargs = c2._kwargs →
      c1.get_code = c2.get_code) := by
  constructor
  · intro c s
    exact ⟨rfl, rfl⟩
  · intro c1 c2 h1 h2 h3 h4 h5
    simp [ChartWithCode.get_code, h1, h2, h3, h4, h5]

/-- A concrete Chart-With-Code instance (the chart `histograms_section`
builds for column "x" of `dfXY`). -/
def cwcX : ChartWithCode :=
  { _df := dfXY, _df_varname := dfVarname dfXY, _plot_func := histogram,
    _args := ["x"], _kwargs := [], _chart_id := "chart-" ++ decimal 0,
    _chart := ⟨dfXY, ["x"], []⟩ }

/-- C7 witness: the purity and stability of `get_code` at the concrete
instance `cwcX`. -/
theorem get_code_pure_stable_witness :
    ((cwcX.get_code_st initState).1
        = (cwcX.get_code_st (cwcX.get_code_st initState).2).1
      ∧ (cwcX.get_code_st (cwcX.get_code_st initState).2).2 = initState)
    ∧ cwcX.get_code = cwcX.get_code :=
  ⟨get_code_pure_stable.1 cwcX initState,
   get_code_pure_stable.2 cwcX cwcX rfl rfl rfl rfl rfl⟩

/-- On success, the chart-building loop stores for each selector, in
order, the normalized arguments, and invokes the plotting function on
exactly those arguments. -/
theorem buildCharts_ok (df : DF) (pf : PlotFunc) (kwargs : List (String × String)) :
    ∀ (aps : List Selector) (s s2 : BuildState) (cs : List ChartWithCode),
      buildCharts df pf kwargs aps s = (.ok cs, s2) →
      cs.map (fun c => c._args) = aps.map atleast_1d
        ∧ ∀ c ∈ cs, c._df = df ∧ c._kwargs = kwargs
            ∧ pf.run df c._args kwargs = .ok c._chart := by
  intro aps
  induction aps with
  | nil =>
      intro s s2 cs h
      simp only [buildCharts, Prod.mk.injEq, Except.ok.injEq] at h
      obtain ⟨hcs, -⟩ := h
      subst hcs
      simp
  | cons a rest ih =>
      intro s s2 cs h
      rcases hrun : pf.run df (atleast_1d a) kwargs with e | ch
      · rw [buildCharts_cons_error a rest s hrun] at h
        simp at h
      · rw [buildCharts_cons_ok a rest s hrun] at h
        rcases hb : buildCharts df pf kwargs rest
            ⟨(s.registry.register_df_varname df).2, s.uuids.fresh.2⟩ with ⟨res, s3⟩
        rw [hb] at h
        rcases res with e | cs2
        · simp [Except.map] at h
        · simp only [Except.map, Prod.mk.injEq, Except.ok.injEq] at h
          obtain ⟨hcs, -⟩ := h
          obtain ⟨hargs, hprops⟩ := ih _ _ _ hb
          subst hcs
          refine ⟨by simp [hargs], ?_⟩
          intro c hc
          rcases List.mem_cons.mp hc with hc | hc
          · subst hc
            exact ⟨rfl, rfl, hrun⟩
          · exact hprops c hc

/-- C8: every chart built through the section builder stores, and was
rendered from, the at-least-one-dimensional normalization of its
selector — so a scalar selector and the equivalent one-element sequence
selector produce the same stored-argument shape and the same call. -/
theorem args_normalized :
    (∀ (df : DF) (pf : PlotFunc) (aps : List Selector)
        (kwargs : List (String × String)) (title : String)
        (s s2 : BuildState) (sec : ChartSection),
      _chart_section df pf aps kwargs title s = (.ok sec, s2) →
      sec.charts.map (fun c => c._args) = aps.map atleast_1d
        ∧ ∀ c ∈ sec.charts, c._df = df ∧ c._kwargs = kwargs
            ∧ pf.run df c._args kwargs = .ok c._chart)
    ∧ (∀ x : String, atleast_1d (.scalar x) = atleast_1d (.seq [x])) := by
  constructor
  · intro df pf aps kwargs title s s2 sec h
    rcases hb : buildCharts df pf kwargs aps s with ⟨res, s3⟩
    rcases res with e | cs
    · simp [_chart_section, hb] at h
    · have hba := buildCharts_ok df pf kwargs aps s s3 cs hb
      simp only [_chart_section, hb] at h
      simp only [Prod.mk.injEq, Except.ok.injEq] at h
      obtain ⟨hsec, -⟩ := h
      subst hsec
      exact hba
  · intro x
    rfl

/-- C8 witness: the normalization property at the concrete build of
`histograms_section dfXY ["x"]`, and the scalar/sequence agreement at
"x". -/
theorem args_normalized_witness :
    (_chart_section dfXY histogram [.scalar "x"] [] "Distributions" initState
        = (.ok ⟨[cwcX], [.sectionTitle "Distributions", .chart cwcX]⟩,
           ⟨(DataframeRegistry.init.register_df_varname dfXY).2, ⟨1⟩⟩)
      ∧ ((⟨[cwcX], [.sectionTitle "Distributions", .chart cwcX]⟩ : ChartSection).charts.map
            (fun c => c._args) = [Selector.scalar "x"].map atleast_1d
        ∧ ∀ c ∈ (⟨[cwcX], [.sectionTitle "Distributions", .chart cwcX]⟩ : ChartSection).charts,
            c._df = dfXY ∧ c._kwargs = []
              ∧ histogram.run dfXY c._args [] = .ok c._chart))
    ∧ atleast_1d (.scalar "x") = atleast_1d (.seq ["x"]) :=
  ⟨⟨rfl, args_normalized.1 dfXY histogram [.scalar "x"] [] "Distributions"
      initState ⟨(DataframeRegistry.init.register_df_varname dfXY).2, ⟨1⟩⟩
      ⟨[cwcX], [.sectionTitle "Distributions", .chart cwcX]⟩ rfl⟩,
   args_normalized.2 "x"⟩

/-- C9: two Chart-With-Code instances built from identical inputs (same
dataframe, plotting function, arguments and keyword arguments, one
after the other) carry different chart identifiers: each construction
draws a fresh token. -/
theorem chart_ids_distinct (df : DF) (pf : PlotFunc) (args : List String)
    (kwargs : List (String × String)) (s s1 s2 : BuildState)
    (c1 c2 : ChartWithCode)
    (h1 : ChartWithCode.init df pf args kwargs s = (.ok c1, s1))
    (h2 : ChartWithCode.init df pf args kwargs s1 = (.ok c2, s2)) :
    c1._chart_id ≠ c2._chart_id := by
  obtain ⟨-, -, hid1, hs1⟩ := init_ok_fields df pf args kwargs s s1 c1 h1
  obtain ⟨-, -, hid2, -⟩ := init_ok_fields df pf args kwargs s1 s2 c2 h2
  rw [hid1, hid2, hs1]
  simp only [UuidGen.fresh]
  intro heq
  have hdec := decimal_injective (string_append_left_cancel heq)
  simp only [UuidGen.fresh] at hdec
  omega

/-- The second chart built for column "x" of `dfXY` (identifier drawn
from the advanced uuid supply). -/
def cwcX2 : ChartWithCode :=
  { _df := dfXY, _df_varname := dfVarname dfXY, _plot_func := histogram,
    _args := ["x"], _kwargs := [], _chart_id := "chart-" ++ decimal 1,
    _chart := ⟨dfXY, ["x"], []⟩ }

/-- C9 witness: building the same chart twice in a row from identical
inputs yields the distinct identifiers of `cwcX` and `cwcX2`. -/
theorem chart_ids_distinct_witness :
    cwcX._chart_id ≠ cwcX2._chart_id :=
  chart_ids_distinct dfXY histogram ["x"] [] initState
    ⟨(DataframeRegistry.init.register_df_varname dfXY).2, ⟨1⟩⟩
    ⟨((DataframeRegistry.init.register_df_varname dfXY).2.register_df_varname dfXY).2, ⟨2⟩⟩
    cwcX cwcX2 rfl rfl

/-- Whatever state the chart-building loop stops in — also when it
stops by raising — the dataframe is registered under its derived name. -/
theorem buildCharts_registers (df : DF) (pf : PlotFunc)
    (kwargs : List (String × String)) :
    ∀ (aps : List Selector) (s : BuildState), aps ≠ [] →
      ((buildCharts df pf kwargs aps s).2.registry.getItem (dfVarname df)).1
        = .ok df := by
  intro aps
  induction aps with
  | nil => intro s h; exact absurd rfl h
  | cons a rest ih =>
      intro s _
      rcases hrun : pf.run df (atleast_1d a) kwargs with e | ch
      · rw [buildCharts_cons_error a rest s hrun]
        simp [DataframeRegistry.getItem, DataframeRegistry.register_df_varname,
          List.lookup_cons]
      · rw [buildCharts_cons_ok a rest s hrun]
        rcases rest with - | ⟨a2, rest2⟩
        · simp only [buildCharts]
          simp [DataframeRegistry.getItem, DataframeRegistry.register_df_varname,
            List.lookup_cons]
        · exact ih ⟨(s.registry.register_df_varname df).2, s.uuids.fresh.2⟩ (by simp)

/-- C10: when the plotting function raises during construction, the
registry has already been mutated: a failed chart — and a failed
section build — still leaves the dataframe registered under its derived
name. -/
theorem failed_build_leaves_df_registered :
    (∀ (df : DF) (pf : PlotFunc) (args : List String)
        (kwargs : List (String × String)) (s : BuildState) (e : PyErr)
        (s2 : BuildState),
      ChartWithCode.init df pf args kwargs s = (.error e, s2) →
      (s2.registry.getItem (dfVarname df)).1 = .ok df)
    ∧ (∀ (df : DF) (pf : PlotFunc) (aps : List Selector)
        (kwargs : List (String × String)) (title : String)
        (s : BuildState) (e : PyErr) (s2 : BuildState),
      _chart_section df pf aps kwargs title s = (.error e, s2) →
      (s2.registry.getItem (dfVarname df)).1 = .ok df) := by
  constructor
  · intro df pf args kwargs s e s2 h
    rcases hrun : pf.run df args kwargs with er | ch
    · rw [init_error s hrun] at h
      simp only [Prod.mk.injEq, Except.error.injEq] at h
      obtain ⟨-, hs⟩ := h
      rw [← hs]
      simp [DataframeRegistry.getItem, DataframeRegistry.register_df_varname,
        List.lookup_cons]
    · rw [init_ok s hrun] at h
      simp at h
  · intro df pf aps kwargs title s e s2 h
    rcases aps with - | ⟨a, rest⟩
    · simp [_chart_section, buildCharts] at h
    · have hreg := buildCharts_registers df pf kwargs (a :: rest) s (by simp)
      rcases hb : buildCharts df pf kwargs (a :: rest) s with ⟨res, s3⟩
      rw [hb] at hreg
      rcases res with er | cs
      · simp only [_chart_section, hb] at h
        simp only [Prod.mk.injEq, Except.error.injEq] at h
        obtain ⟨-, hs⟩ := h
        rw [← hs]
        exact hreg
      · simp [_chart_section, hb] at h

/-- C10 witness: the failed build of `chart_construction_spec_witness`
leaves `dfXY` resolvable under its derived name in the registry the
failed constructor mutated. -/
theorem failed_build_leaves_df_registered_witness :
    ChartWithCode.init dfXY (failingPlot "boom") ["x"] [] initState
      = (.error (.plotError "boom"),
         ⟨(DataframeRegistry.init.register_df_varname dfXY).2, ⟨1⟩⟩)
    ∧ (((⟨(DataframeRegistry.init.register_df_varname dfXY).2, ⟨1⟩⟩ :
          BuildState).registry.getItem (dfVarname dfXY)).1 = .ok dfXY) :=
  ⟨rfl,
   failed_build_leaves_df_registered.1 dfXY (failingPlot "boom") ["x"] []
     initState (.plotError "boom")
     ⟨(DataframeRegistry.init.register_df_varname dfXY).2, ⟨1⟩⟩ rfl⟩

end Quickchart
